import Mathlib

/-!
Shallow embedding of `sb3_contrib/ars/policies.py` (ARS policy networks).

The Python module defines two policy classes built on top of external
capabilities (a feature extractor, the `create_mlp` layer builder, `nn.Linear`,
`nn.Tanh`, `torch.argmax`):

* `ARSPolicy.__init__` branches on the action-space kind (Box / Discrete /
  other), builds an action network, and passes
  `isinstance(action_space, Box) and squash_output` to the base class.
* `ARSPolicy.forward` returns the raw network output for Box spaces and the
  per-row argmax of the logits for Discrete spaces.
* `ARSLinearPolicy.__init__` calls the base constructor and then replaces the
  action network by a single linear layer (wrapped in `Tanh` when squashing a
  Box space).

Numeric tensor values are modelled over `ℚ`.  The transcendental `tanh`
applied by the `nn.Tanh` squashing module is not exactly representable over
`ℚ`, so evaluation is parameterised by its interpretation `tanhSem : ℚ → ℚ`;
claims about squashing take the bounding property of `tanh` as a hypothesis.
Layer weights are chosen by the external initialiser, so network construction
records layer shapes (`LayerSpec`) and evaluation consumes a separate list of
weight assignments.
-/

/-- Kind of a `gym.spaces` descriptor, as tested by the `isinstance` checks in
the source: a continuous `Box` (with its flattened dimension), a categorical
`Discrete` (with its number of categories), or any other space kind. -/
inductive GymSpace
  | box (dim : Nat)
  | discrete (n : Nat)
  | other
deriving DecidableEq, Repr

/-- `isinstance(space, gym.spaces.Box)`. -/
def GymSpace.isBox : GymSpace → Bool
  | .box _ => true
  | _ => false

/-- `isinstance(space, gym.spaces.Discrete)`. -/
def GymSpace.isDiscrete : GymSpace → Bool
  | .discrete _ => true
  | _ => false

/-- Output width of the action network for a supported action space:
`get_action_dim` for a Box, `action_space.n` for a Discrete space. -/
def GymSpace.outDim : GymSpace → Nat
  | .box d => d
  | .discrete n => n
  | .other => 0

/-- `features_dim` of the feature extractor produced by
`make_features_extractor` (the external flatten extractor): the flattened
width of the observation space. -/
def featuresDim : GymSpace → Nat
  | .box d => d
  | .discrete n => n
  | .other => 0

/-- Identifier of the caller-chosen activation module class
(`activation_fn : Type[nn.Module]`, default `nn.ReLU`), restricted to
activation modules with exact rational semantics. -/
inductive ActivationFn
  | relu
  | leakyRelu
  | hardtanh
deriving DecidableEq, Repr

/-- Rational semantics of an activation module instance (`activation_fn()`). -/
def actSem : ActivationFn → ℚ → ℚ
  | .relu, x => max x 0
  | .leakyRelu, x => if x < 0 then x / 100 else x
  | .hardtanh, x => max (-1) (min 1 x)

/-- Shape of one module in an `nn.Sequential` action network:
`nn.Linear(inDim, outDim, bias=withBias)`, an activation-function instance, or
the `nn.Tanh()` bounding module appended for output squashing. -/
inductive LayerSpec
  | linear (inDim outDim : Nat) (withBias : Bool)
  | activationOf (fn : ActivationFn)
  | tanh
deriving DecidableEq, Repr

/-- Hidden part of `create_mlp`: `Linear(prev, h) , activation_fn()` for each
hidden width `h`, each linear layer with bias (stable-baselines3 default). -/
def mlpHidden (activationFn : ActivationFn) : Nat → List Nat → List LayerSpec
  | _, [] => []
  | prev, h :: rest =>
      LayerSpec.linear prev h true :: LayerSpec.activationOf activationFn :: mlpHidden activationFn h rest

/-- Input width of the final layer of `create_mlp`: the last hidden width, or
the input width when `net_arch` is empty. -/
def lastLayerDim (inputDim : Nat) (netArch : List Nat) : Nat :=
  netArch.getLast?.getD inputDim

/-- Modelled from the spec: the external MLP-building capability
(`create_mlp` of `stable_baselines3.common.torch_layers`, not part of this
repository) "taking (input width, output width, hidden widths, activation,
squash-flag) and returning an ordered sequence of layers", whose final
nonlinearity under the squash flag "is fixed to a bounding function":
hidden `Linear`/activation pairs, a final `Linear` onto `outputDim` when
`outputDim > 0`, and a terminal `Tanh` when `squashOutput` is set. -/
def create_mlp (inputDim outputDim : Nat) (netArch : List Nat)
    (activationFn : ActivationFn) (squashOutput : Bool := false) : List LayerSpec :=
  mlpHidden activationFn inputDim netArch
    ++ (if 0 < outputDim then [LayerSpec.linear (lastLayerDim inputDim netArch) outputDim true] else [])
    ++ (if squashOutput then [LayerSpec.tanh] else [])

/-- Weights of one `nn.Linear` module, chosen by the external initialiser:
one row of `weight` per output coordinate, and a `bias` vector (ignored when
the layer was built with `bias=False`). -/
structure LinearWeights where
  weight : List (List ℚ)
  bias : List ℚ
deriving DecidableEq, Repr

/-- Dot product of two rational vectors (truncating to the shorter one). -/
def dot (xs ys : List ℚ) : ℚ :=
  (List.zipWith (fun a b => a * b) xs ys).sum

/-- Application of one `nn.Linear` module: `W·x + b` with bias, `W·x`
without. -/
def applyLinear (withBias : Bool) (wt : LinearWeights) (x : List ℚ) : List ℚ :=
  if withBias then List.zipWith (fun row b => dot row x + b) wt.weight wt.bias
  else wt.weight.map (fun row => dot row x)

/-- Evaluation of an `nn.Sequential` network on one input vector: linear
layers consume weight assignments in order (a missing assignment skips the
layer; well-shapedness is tracked by `weightsMatch`), activation and `Tanh`
modules map their semantics over the vector. -/
def evalNet (tanhSem : ℚ → ℚ) : List LayerSpec → List LinearWeights → List ℚ → List ℚ
  | [], _, x => x
  | LayerSpec.linear _ _ wb :: rest, wt :: ws, x => evalNet tanhSem rest ws (applyLinear wb wt x)
  | LayerSpec.linear _ _ _ :: rest, [], x => evalNet tanhSem rest [] x
  | LayerSpec.activationOf f :: rest, ws, x => evalNet tanhSem rest ws (x.map (actSem f))
  | LayerSpec.tanh :: rest, ws, x => evalNet tanhSem rest ws (x.map tanhSem)

/-- The weight list provides exactly one well-shaped assignment per linear
layer of the network. -/
def weightsMatch : List LayerSpec → List LinearWeights → Bool
  | [], ws => ws.isEmpty
  | LayerSpec.linear i o _ :: rest, wt :: ws =>
      wt.weight.length == o && wt.weight.all (fun r => r.length == i)
        && wt.bias.length == o && weightsMatch rest ws
  | LayerSpec.linear _ _ _ :: _, [] => false
  | LayerSpec.activationOf _ :: rest, ws => weightsMatch rest ws
  | LayerSpec.tanh :: rest, ws => weightsMatch rest ws

/-- Output width of a network on an input of width `n`: linear layers impose
their output width, pointwise modules preserve width. -/
def netOutputLen : List LayerSpec → Nat → Nat
  | [], n => n
  | LayerSpec.linear _ o _ :: rest, _ => netOutputLen rest o
  | LayerSpec.activationOf _ :: rest, n => netOutputLen rest n
  | LayerSpec.tanh :: rest, n => netOutputLen rest n

/-- Maximum of a rational list, `none` on the empty list. -/
def listMax? : List ℚ → Option ℚ
  | [] => none
  | x :: xs =>
      match listMax? xs with
      | none => some x
      | some m => some (max x m)

/-- `torch.argmax` on one row of logits: the index of the first-occurring
maximum (0 on an empty row). -/
def argmax : List ℚ → Nat
  | [] => 0
  | x :: xs =>
      match listMax? xs with
      | none => 0
      | some m => if x < m then argmax xs + 1 else 0

/-- The single error kind of the module: the `NotImplementedError` raised when
the action space is neither `Box` nor `Discrete`. -/
inductive PolicyError
  | unsupportedActionSpace
deriving DecidableEq, Repr

/-- State of a constructed `ARSPolicy` (also of an `ARSLinearPolicy`, which
only replaces `action_net`): the attributes set by `__init__`. -/
structure ARSPolicy where
  observation_space : GymSpace
  action_space : GymSpace
  net_arch : List Nat
  activation_fn : ActivationFn
  squash_output : Bool
  features_dim : Nat
  action_net : List LayerSpec
deriving DecidableEq, Repr

/-- `ARSPolicy.__init__`: passes `isinstance(action_space, Box) and
squash_output` to the base class, defaults `net_arch` to `[64, 64]`, sets
`features_dim` from the feature extractor, and builds the action network with
`create_mlp` — with `squash_output=True` on the Box branch, no squash flag on
the Discrete branch — raising `NotImplementedError` otherwise. -/
def ARSPolicy.construct (observation_space action_space : GymSpace)
    (net_arch : Option (List Nat) := none)
    (activation_fn : ActivationFn := ActivationFn.relu)
    (squash_output : Bool := true) : Except PolicyError ARSPolicy :=
  let squashForBase := action_space.isBox && squash_output
  let netArch := net_arch.getD [64, 64]
  let fdim := featuresDim observation_space
  match action_space with
  | GymSpace.box actionDim =>
      Except.ok
        { observation_space := observation_space
          action_space := action_space
          net_arch := netArch
          activation_fn := activation_fn
          squash_output := squashForBase
          features_dim := fdim
          action_net := create_mlp fdim actionDim netArch activation_fn true }
  | GymSpace.discrete n =>
      Except.ok
        { observation_space := observation_space
          action_space := action_space
          net_arch := netArch
          activation_fn := activation_fn
          squash_output := squashForBase
          features_dim := fdim
          action_net := create_mlp fdim n netArch activation_fn }
  | GymSpace.other => Except.error PolicyError.unsupportedActionSpace

/-- The dictionary returned by `ARSPolicy.__get_constructor_parameters`. -/
structure ConstructorParameters where
  observation_space : GymSpace
  action_space : GymSpace
  net_arch : List Nat
  activation_fn : ActivationFn
deriving DecidableEq, Repr

/-- `ARSPolicy.__get_constructor_parameters`. -/
def ARSPolicy._get_constructor_parameters (p : ARSPolicy) : ConstructorParameters :=
  { observation_space := p.observation_space
    action_space := p.action_space
    net_arch := p.net_arch
    activation_fn := p.activation_fn }

/-- Return value of `forward`: a batch of action vectors for Box spaces, a
batch of category indices for Discrete spaces. -/
inductive ActionOutput
  | continuous (actions : List (List ℚ))
  | discrete (indices : List Nat)
deriving DecidableEq, Repr

/-- `ARSPolicy.forward`: extracts features (the flatten extractor, modelled as
the identity on an already-flattened rational batch), then returns the raw
network output for Box spaces, the per-row argmax of the logits for Discrete
spaces, and raises `NotImplementedError` otherwise. -/
def ARSPolicy.forward (tanhSem : ℚ → ℚ) (p : ARSPolicy) (ws : List LinearWeights)
    (obs : List (List ℚ)) : Except PolicyError ActionOutput :=
  let features := obs
  match p.action_space with
  | GymSpace.box _ =>
      Except.ok (ActionOutput.continuous (features.map (evalNet tanhSem p.action_net ws)))
  | GymSpace.discrete _ =>
      Except.ok (ActionOutput.discrete
        (features.map (fun row => argmax (evalNet tanhSem p.action_net ws row))))
  | GymSpace.other => Except.error PolicyError.unsupportedActionSpace

/-- `ARSPolicy._predict`: ignores the `deterministic` parameter and calls
`self(observation)`, i.e. `forward`. -/
def ARSPolicy._predict (tanhSem : ℚ → ℚ) (p : ARSPolicy) (ws : List LinearWeights)
    (observation : List (List ℚ)) (deterministic : Bool := true) :
    Except PolicyError ActionOutput :=
  p.forward tanhSem ws observation

/-- `ARSLinearPolicy.__init__`: calls the base constructor (fixed defaults
`net_arch=None`, `activation_fn=nn.ReLU`, forwarding `squash_output`), then
replaces `action_net` by a single `nn.Linear(features_dim, out, bias=with_bias)`
— wrapped in `nn.Tanh()` when squashing a Box space — raising
`NotImplementedError` for other action-space kinds. -/
def ARSLinearPolicy.construct (observation_space action_space : GymSpace)
    (with_bias : Bool := false) (squash_output : Bool := false) :
    Except PolicyError ARSPolicy :=
  match ARSPolicy.construct observation_space action_space none ActivationFn.relu squash_output with
  | Except.error e => Except.error e
  | Except.ok base =>
      match action_space with
      | GymSpace.box actionDim =>
          let linearNet := [LayerSpec.linear base.features_dim actionDim with_bias]
          Except.ok
            { base with
                action_net := if squash_output then linearNet ++ [LayerSpec.tanh] else linearNet }
      | GymSpace.discrete n =>
          Except.ok { base with action_net := [LayerSpec.linear base.features_dim n with_bias] }
      | GymSpace.other => Except.error PolicyError.unsupportedActionSpace

/-- A computable stand-in with the defining property of a bounding
nonlinearity (range inside `(-1, 1)`), used to instantiate `tanhSem` in
concrete witnesses. -/
def tanhQ (x : ℚ) : ℚ := x / (1 + |x|)

/-- Concrete MLP policy over Box observation and action spaces of width 2,
constructed with `squash_output=False` (used by concrete witnesses). -/
def sampleBoxPolicy : ARSPolicy :=
  { observation_space := GymSpace.box 2
    action_space := GymSpace.box 2
    net_arch := [64, 64]
    activation_fn := ActivationFn.relu
    squash_output := false
    features_dim := 2
    action_net := create_mlp 2 2 [64, 64] ActivationFn.relu true }

/-- Concrete MLP policy over a Discrete action space with 2 categories and an
empty `net_arch` (used by concrete witnesses). -/
def sampleDiscretePolicy : ARSPolicy :=
  { observation_space := GymSpace.box 1
    action_space := GymSpace.discrete 2
    net_arch := []
    activation_fn := ActivationFn.relu
    squash_output := false
    features_dim := 1
    action_net := [LayerSpec.linear 1 2 true] }

/-- Concrete linear policy over a Box space with `squash_output=True` (used by
concrete witnesses). -/
def sampleSquashedLinearPolicy : ARSPolicy :=
  { observation_space := GymSpace.box 1
    action_space := GymSpace.box 1
    net_arch := [64, 64]
    activation_fn := ActivationFn.relu
    squash_output := true
    features_dim := 1
    action_net := [LayerSpec.linear 1 1 false, LayerSpec.tanh] }

/-- Concrete linear policy over a Box space with `squash_output=False` (used by
concrete witnesses). -/
def sampleUnsquashedLinearPolicy : ARSPolicy :=
  { observation_space := GymSpace.box 1
    action_space := GymSpace.box 1
    net_arch := [64, 64]
    activation_fn := ActivationFn.relu
    squash_output := false
    features_dim := 1
    action_net := [LayerSpec.linear 1 1 false] }

/-- Concrete linear policy over a Discrete action space with 2 categories,
`with_bias=False`, `squash_output=False` (used by concrete witnesses). -/
def sampleLinearDiscretePolicy : ARSPolicy :=
  { observation_space := GymSpace.box 1
    action_space := GymSpace.discrete 2
    net_arch := [64, 64]
    activation_fn := ActivationFn.relu
    squash_output := false
    features_dim := 1
    action_net := [LayerSpec.linear 1 2 false] }

example : ARSPolicy.construct (GymSpace.box 1) (GymSpace.discrete 2) (some []) =
    Except.ok
      { observation_space := GymSpace.box 1
        action_space := GymSpace.discrete 2
        net_arch := []
        activation_fn := ActivationFn.relu
        squash_output := false
        features_dim := 1
        action_net := [LayerSpec.linear 1 2 true] } := by rfl

example :
    ARSLinearPolicy.construct (GymSpace.box 1) (GymSpace.box 1) false true =
      Except.ok
        { observation_space := GymSpace.box 1
          action_space := GymSpace.box 1
          net_arch := [64, 64]
          activation_fn := ActivationFn.relu
          squash_output := true
          features_dim := 1
          action_net := [LayerSpec.linear 1 1 false, LayerSpec.tanh] } := by rfl

example : argmax [3, 5, 5] = 1 := by rfl
example : argmax [5, 3, 5] = 0 := by rfl
example : argmax [1, 3, 7] = 2 := by rfl

/-- Unfolding of `ARSPolicy.construct` on a Box action space. -/
theorem ARSPolicy.construct_box (obs : GymSpace) (d : Nat) (na : Option (List Nat))
    (af : ActivationFn) (so : Bool) :
    ARSPolicy.construct obs (GymSpace.box d) na af so =
      Except.ok
        { observation_space := obs
          action_space := GymSpace.box d
          net_arch := na.getD [64, 64]
          activation_fn := af
          squash_output := so
          features_dim := featuresDim obs
          action_net := create_mlp (featuresDim obs) d (na.getD [64, 64]) af true } := rfl

/-- Unfolding of `ARSPolicy.construct` on a Discrete action space. -/
theorem ARSPolicy.construct_discrete (obs : GymSpace) (n : Nat) (na : Option (List Nat))
    (af : ActivationFn) (so : Bool) :
    ARSPolicy.construct obs (GymSpace.discrete n) na af so =
      Except.ok
        { observation_space := obs
          action_space := GymSpace.discrete n
          net_arch := na.getD [64, 64]
          activation_fn := af
          squash_output := false
          features_dim := featuresDim obs
          action_net := create_mlp (featuresDim obs) n (na.getD [64, 64]) af } := rfl

/-- Unfolding of `ARSLinearPolicy.construct` on a Box action space. -/
theorem linear_construct_box (obs : GymSpace) (d : Nat) (wb so : Bool) :
    ARSLinearPolicy.construct obs (GymSpace.box d) wb so =
      Except.ok
        { observation_space := obs
          action_space := GymSpace.box d
          net_arch := [64, 64]
          activation_fn := ActivationFn.relu
          squash_output := so
          features_dim := featuresDim obs
          action_net :=
            if so then [LayerSpec.linear (featuresDim obs) d wb, LayerSpec.tanh]
            else [LayerSpec.linear (featuresDim obs) d wb] } := by
  cases so <;> rfl

/-- Unfolding of `ARSLinearPolicy.construct` on a Discrete action space. -/
theorem linear_construct_discrete (obs : GymSpace) (n : Nat) (wb so : Bool) :
    ARSLinearPolicy.construct obs (GymSpace.discrete n) wb so =
      Except.ok
        { observation_space := obs
          action_space := GymSpace.discrete n
          net_arch := [64, 64]
          activation_fn := ActivationFn.relu
          squash_output := false
          features_dim := featuresDim obs
          action_net := [LayerSpec.linear (featuresDim obs) n wb] } := rfl

/-- A network built by `create_mlp` with the squash flag ends in the `Tanh`
bounding module. -/
theorem create_mlp_getLast (i o : Nat) (na : List Nat) (af : ActivationFn) :
    (create_mlp i o na af true).getLast? = some LayerSpec.tanh := by
  unfold create_mlp
  rw [if_pos rfl, List.append_assoc]
  rcases h : (if 0 < o then [LayerSpec.linear (lastLayerDim i na) o true] else []) with _ | _
  · exact List.getLast?_concat _
  · rw [← List.append_assoc]
    exact List.getLast?_concat _

/-- The hidden part of `create_mlp` holds only linear and activation modules,
never `Tanh`. -/
theorem tanh_not_mem_mlpHidden (af : ActivationFn) (na : List Nat) :
    ∀ prev : Nat, LayerSpec.tanh ∉ mlpHidden af prev na := by
  induction na with
  | nil => intro prev h; cases h
  | cons hd rest ih =>
      intro prev h
      rcases h with _ | ⟨_, h⟩
      rcases h with _ | ⟨_, h⟩
      exact ih hd h

/-- A network built by `create_mlp` without the squash flag holds no `Tanh`
module. -/
theorem tanh_not_mem_create_mlp (i o : Nat) (na : List Nat) (af : ActivationFn) :
    LayerSpec.tanh ∉ create_mlp i o na af false := by
  intro h
  unfold create_mlp at h
  rcases List.mem_append.mp h with h1 | h2
  · rcases List.mem_append.mp h1 with h3 | h4
    · exact tanh_not_mem_mlpHidden af na i h3
    · split at h4 <;> simp at h4
  · simp at h2

/-- `netOutputLen` distributes over network concatenation. -/
theorem netOutputLen_append (a : List LayerSpec) :
    ∀ (b : List LayerSpec) (n : Nat), netOutputLen (a ++ b) n = netOutputLen b (netOutputLen a n) := by
  induction a with
  | nil => intro b n; rfl
  | cons l rest ih =>
      intro b n
      cases l with
      | linear i o wb => exact ih b o
      | activationOf f => exact ih b n
      | tanh => exact ih b n

/-- Pointwise modules do not change `netOutputLen`; a `create_mlp` network
with positive output width maps any input width to that output width. -/
theorem netOutputLen_create_mlp (i o : Nat) (na : List Nat) (af : ActivationFn) (sq : Bool)
    (ho : 0 < o) (n : Nat) : netOutputLen (create_mlp i o na af sq) n = o := by
  unfold create_mlp
  rw [netOutputLen_append, netOutputLen_append, if_pos ho]
  cases sq
  · rfl
  · rfl

/-- A well-shaped linear application has the layer's output width. -/
theorem applyLinear_length (wb : Bool) (wt : LinearWeights) (x : List ℚ) (o : Nat)
    (hw : wt.weight.length = o) (hb : wt.bias.length = o) :
    (applyLinear wb wt x).length = o := by
  unfold applyLinear
  cases wb
  · simpa using hw
  · simp [hw, hb]

/-- Evaluating a network against matching weights yields `netOutputLen`
output coordinates. -/
theorem evalNet_length (t : ℚ → ℚ) (spec : List LayerSpec) :
    ∀ (ws : List LinearWeights) (x : List ℚ), weightsMatch spec ws = true →
      (evalNet t spec ws x).length = netOutputLen spec x.length := by
  induction spec with
  | nil => intro ws x _; rfl
  | cons l rest ih =>
      intro ws x h
      cases l with
      | linear i o wb =>
          cases ws with
          | nil => exact absurd h (by simp [weightsMatch])
          | cons wt ws2 =>
              simp only [weightsMatch, Bool.and_eq_true, beq_iff_eq] at h
              obtain ⟨⟨⟨hlen, _⟩, hbias⟩, hrest⟩ := h
              show (evalNet t rest ws2 (applyLinear wb wt x)).length = netOutputLen rest o
              rw [ih ws2 _ hrest, applyLinear_length wb wt x o hlen hbias]
      | activationOf f =>
          show (evalNet t rest ws (x.map (actSem f))).length = netOutputLen rest x.length
          rw [ih ws _ h, List.length_map]
      | tanh =>
          show (evalNet t rest ws (x.map t)).length = netOutputLen rest x.length
          rw [ih ws _ h, List.length_map]

/-- `listMax?` is `none` exactly on the empty list. -/
theorem listMax?_eq_none_iff (l : List ℚ) : listMax? l = none ↔ l = [] := by
  cases l with
  | nil => simp [listMax?]
  | cons x xs =>
      simp only [listMax?]
      cases listMax? xs <;> simp

/-- The value computed by `listMax?` bounds every element of the list. -/
theorem listMax?_le (l : List ℚ) : ∀ m : ℚ, listMax? l = some m → ∀ y ∈ l, y ≤ m := by
  induction l with
  | nil => intro m h; simp [listMax?] at h
  | cons x xs ih =>
      intro m h y hy
      rcases hxs : listMax? xs with _ | m2
      · have hxe : xs = [] := (listMax?_eq_none_iff xs).mp hxs
        subst hxe
        simp [listMax?] at h
        rcases List.mem_singleton.mp hy with rfl
        exact le_of_eq h
      · simp [listMax?, hxs] at h
        rcases List.mem_cons.mp hy with rfl | hy2
        · exact h ▸ le_max_left y m2
        · exact h ▸ le_trans (ih m2 hxs y hy2) (le_max_right x m2)

/-- The value computed by `listMax?` is attained in the list. -/
theorem listMax?_mem (l : List ℚ) : ∀ m : ℚ, listMax? l = some m → m ∈ l := by
  induction l with
  | nil => intro m h; simp [listMax?] at h
  | cons x xs ih =>
      intro m h
      rcases hxs : listMax? xs with _ | m2
      · simp [listMax?, hxs] at h
        subst h
        exact List.mem_cons_self x xs
      · simp [listMax?, hxs] at h
        subst h
        rcases le_total x m2 with hle | hle
        · rw [max_eq_right hle]
          exact List.mem_cons_of_mem x (ih m2 hxs)
        · rw [max_eq_left hle]
          exact List.mem_cons_self x xs

/-- `argmax` returns an index inside a nonempty list. -/
theorem argmax_lt_length (l : List ℚ) (h : l ≠ []) : argmax l < l.length := by
  induction l with
  | nil => exact absurd rfl h
  | cons x xs ih =>
      rcases hxs : listMax? xs with _ | m
      · simp [argmax, hxs]
      · have hne : xs ≠ [] := by
          intro he
          rw [he] at hxs
          simp [listMax?] at hxs
        by_cases hx : x < m
        · simp only [argmax, hxs, if_pos hx, List.length_cons]
          exact Nat.succ_lt_succ (ih hne)
        · simp [argmax, hxs, hx]

/-- The logit at the `argmax` index is the maximum of the row. -/
theorem argmax_getD (l : List ℚ) : ∀ m : ℚ, listMax? l = some m → l.getD (argmax l) 0 = m := by
  induction l with
  | nil => intro m h; simp [listMax?] at h
  | cons x xs ih =>
      intro m h
      rcases hxs : listMax? xs with _ | m2
      · have hxe : xs = [] := (listMax?_eq_none_iff xs).mp hxs
        subst hxe
        simp [listMax?] at h
        simp [argmax, listMax?, h]
      · simp [listMax?, hxs] at h
        by_cases hx : x < m2
        · simp only [argmax, hxs, if_pos hx]
          rw [List.getD_cons_succ, ih m2 hxs, ← h, max_eq_right (le_of_lt hx)]
        · simp only [argmax, hxs, if_neg hx]
          rw [List.getD_cons_zero, ← h, max_eq_left (le_of_not_lt hx)]

/-- Every logit strictly before the `argmax` index is strictly below the
logit at the `argmax` index: ties go to the first-occurring maximum. -/
theorem argmax_first (l : List ℚ) : ∀ j : Nat, j < argmax l → l.getD j 0 < l.getD (argmax l) 0 := by
  induction l with
  | nil => intro j hj; simp [argmax] at hj
  | cons x xs ih =>
      intro j hj
      rcases hxs : listMax? xs with _ | m
      · simp [argmax, hxs] at hj
      · by_cases hx : x < m
        · simp only [argmax, hxs, if_pos hx] at hj ⊢
          rw [List.getD_cons_succ, argmax_getD xs m hxs]
          cases j with
          | zero => rw [List.getD_cons_zero]; exact hx
          | succ j2 =>
              rw [List.getD_cons_succ]
              have hj2 : j2 < argmax xs := Nat.lt_of_succ_lt_succ hj
              have := ih j2 hj2
              rw [argmax_getD xs m hxs] at this
              exact this
        · simp [argmax, hxs, hx] at hj

/-- The witness stand-in `tanhQ` has the defining range property of a bounding
nonlinearity. -/
theorem tanhQ_bounded (x : ℚ) : -1 < tanhQ x ∧ tanhQ x < 1 := by
  unfold tanhQ
  have h1 : (0 : ℚ) < 1 + |x| := by positivity
  constructor
  · rw [lt_div_iff₀ h1]
    have := neg_abs_le x
    linarith
  · rw [div_lt_one h1]
    have := le_abs_self x
    linarith

/-- A successfully constructed `ARSPolicy` stores the given spaces. -/
theorem ARSPolicy.construct_ok_spaces (obs act : GymSpace) (na : Option (List Nat))
    (af : ActivationFn) (so : Bool) (p : ARSPolicy)
    (hok : ARSPolicy.construct obs act na af so = Except.ok p) :
    p.observation_space = obs ∧ p.action_space = act := by
  cases act with
  | box d =>
      rw [ARSPolicy.construct_box] at hok
      injection hok with hp
      subst hp
      exact ⟨rfl, rfl⟩
  | discrete n =>
      rw [ARSPolicy.construct_discrete] at hok
      injection hok with hp
      subst hp
      exact ⟨rfl, rfl⟩
  | other => exact absurd hok (by simp [ARSPolicy.construct])

/-- A successfully constructed `ARSLinearPolicy` stores the given spaces. -/
theorem linear_construct_ok_spaces (obs act : GymSpace) (wb so : Bool)
    (p : ARSPolicy) (hok : ARSLinearPolicy.construct obs act wb so = Except.ok p) :
    p.observation_space = obs ∧ p.action_space = act := by
  cases act with
  | box d =>
      rw [linear_construct_box] at hok
      injection hok with hp
      subst hp
      exact ⟨rfl, rfl⟩
  | discrete n =>
      rw [linear_construct_discrete] at hok
      injection hok with hp
      subst hp
      exact ⟨rfl, rfl⟩
  | other => exact absurd hok (by simp [ARSLinearPolicy.construct, ARSPolicy.construct])

/-- The dot product against an all-zero vector vanishes. -/
theorem dot_replicate_zero (xs : List ℚ) : ∀ n : Nat, dot xs (List.replicate n 0) = 0 := by
  induction xs with
  | nil => intro n; rfl
  | cons x xs ih =>
      intro n
      cases n with
      | zero => rfl
      | succ n2 =>
          show dot (x :: xs) (List.replicate (n2 + 1) 0) = 0
          rw [List.replicate_succ]
          unfold dot
          rw [List.zipWith_cons_cons, List.sum_cons]
          have h2 := ih n2
          unfold dot at h2
          rw [h2, mul_zero, zero_add]

/-- A bias-free linear layer maps the all-zero feature vector to the all-zero
output vector. -/
theorem applyLinear_no_bias_zero (wt : LinearWeights) (n : Nat) :
    applyLinear false wt (List.replicate n 0) = List.replicate wt.weight.length 0 := by
  show wt.weight.map (fun row => dot row (List.replicate n 0)) = List.replicate wt.weight.length 0
  induction wt.weight with
  | nil => rfl
  | cons r rs ih =>
      rw [List.map_cons, dot_replicate_zero r n, ih, List.length_cons, List.replicate_succ]

/-- On a row of equal logits the first-occurring maximum is at index 0. -/
theorem argmax_replicate_zero (n : Nat) : argmax (List.replicate n (0 : ℚ)) = 0 := by
  cases n with
  | zero => rfl
  | succ n2 =>
      rw [List.replicate_succ]
      rcases h : listMax? (List.replicate n2 (0 : ℚ)) with _ | m
      · simp [argmax, h]
      · have hm : m = 0 := List.eq_of_mem_replicate (listMax?_mem _ m h)
        subst hm
        simp [argmax, h]

/-- Claim C1: with a Box action space the constructed multi-layer action
network always ends in the fixed `Tanh` bounding module whatever the caller's
`squash_output` flag, the policy-level squash flag stored for the base class
equals (action space is a Box AND `squash_output`), and with a Discrete action
space no squashing module ever appears in the network. -/
theorem ars_c1_squash_flags (obs act : GymSpace) (na : Option (List Nat))
    (af : ActivationFn) (so : Bool) (p : ARSPolicy)
    (hok : ARSPolicy.construct obs act na af so = Except.ok p) :
    p.squash_output = (act.isBox && so) ∧
    (∀ d : Nat, act = GymSpace.box d → p.action_net.getLast? = some LayerSpec.tanh) ∧
    (∀ n : Nat, act = GymSpace.discrete n → LayerSpec.tanh ∉ p.action_net) := by
  cases act with
  | box d2 =>
      rw [ARSPolicy.construct_box] at hok
      injection hok with hp
      subst hp
      refine ⟨rfl, ?_, ?_⟩
      · intro d hd
        exact create_mlp_getLast _ _ _ _
      · intro n hn
        cases hn
  | discrete n2 =>
      rw [ARSPolicy.construct_discrete] at hok
      injection hok with hp
      subst hp
      refine ⟨rfl, ?_, ?_⟩
      · intro d hd
        cases hd
      · intro n hn
        exact tanh_not_mem_create_mlp _ _ _ _
  | other => exact absurd hok (by simp [ARSPolicy.construct])

/-- Concrete instantiation of claim C1 at a Box policy built with
`squash_output=False`. -/
theorem ars_c1_squash_flags_witness :
    sampleBoxPolicy.squash_output = ((GymSpace.box 2).isBox && false) ∧
    sampleBoxPolicy.action_net.getLast? = some LayerSpec.tanh :=
  ⟨(ars_c1_squash_flags (GymSpace.box 2) (GymSpace.box 2) none ActivationFn.relu false
      sampleBoxPolicy rfl).1,
   (ars_c1_squash_flags (GymSpace.box 2) (GymSpace.box 2) none ActivationFn.relu false
      sampleBoxPolicy rfl).2.1 2 rfl⟩

/-- Claim C3: construction over an action space that is neither Box nor
Discrete fails with the unsupported-action-space error for both policy
classes (the module's only error kind), while construction over a Box or
Discrete space always succeeds. -/
theorem ars_c3_unsupported_space (obs : GymSpace) (na : Option (List Nat))
    (af : ActivationFn) (so wb : Bool) :
    ARSPolicy.construct obs GymSpace.other na af so =
      Except.error PolicyError.unsupportedActionSpace ∧
    ARSLinearPolicy.construct obs GymSpace.other wb so =
      Except.error PolicyError.unsupportedActionSpace ∧
    ∀ act : GymSpace, act ≠ GymSpace.other →
      (∃ p, ARSPolicy.construct obs act na af so = Except.ok p) ∧
      (∃ q, ARSLinearPolicy.construct obs act wb so = Except.ok q) := by
  refine ⟨rfl, rfl, ?_⟩
  intro act hact
  cases act with
  | box d =>
      exact ⟨⟨_, ARSPolicy.construct_box obs d na af so⟩,
        ⟨_, linear_construct_box obs d wb so⟩⟩
  | discrete n =>
      exact ⟨⟨_, ARSPolicy.construct_discrete obs n na af so⟩,
        ⟨_, linear_construct_discrete obs n wb so⟩⟩
  | other => exact absurd rfl hact

/-- Concrete instantiation of claim C3: a tuple-like space fails, a Discrete
space succeeds. -/
theorem ars_c3_unsupported_space_witness :
    ARSPolicy.construct (GymSpace.box 1) GymSpace.other none ActivationFn.relu true =
      Except.error PolicyError.unsupportedActionSpace ∧
    (∃ p, ARSPolicy.construct (GymSpace.box 1) (GymSpace.discrete 3) none ActivationFn.relu true =
      Except.ok p) :=
  ⟨(ars_c3_unsupported_space (GymSpace.box 1) none ActivationFn.relu true false).1,
   ((ars_c3_unsupported_space (GymSpace.box 1) none ActivationFn.relu true false).2.2
      (GymSpace.discrete 3) (by decide)).1⟩

/-- Claim C7: `_predict` returns the same action whatever the deterministic
flag, and in both cases equals `forward` on the batch. -/
theorem ars_c7_deterministic_noop (tanhSem : ℚ → ℚ) (p : ARSPolicy)
    (ws : List LinearWeights) (obs : List (List ℚ)) (det : Bool) :
    ARSPolicy._predict tanhSem p ws obs det = p.forward tanhSem ws obs ∧
    ARSPolicy._predict tanhSem p ws obs true =
      ARSPolicy._predict tanhSem p ws obs false :=
  ⟨rfl, rfl⟩

/-- Claim C9: `net_arch` defaults to `[64, 64]` when unset, and is reported
verbatim, not altered, by the subsequent operations (the embedding is purely
functional, so no operation mutates a constructed policy; the serialization
hook reads the stored value unchanged). -/
theorem ars_c9_net_arch_default (obs act : GymSpace) (af : ActivationFn) (so : Bool)
    (p : ARSPolicy) :
    (ARSPolicy.construct obs act none af so = Except.ok p → p.net_arch = [64, 64]) ∧
    p._get_constructor_parameters.net_arch = p.net_arch := by
  refine ⟨?_, rfl⟩
  intro hok
  cases act with
  | box d =>
      rw [ARSPolicy.construct_box] at hok
      injection hok with hp
      subst hp
      rfl
  | discrete n =>
      rw [ARSPolicy.construct_discrete] at hok
      injection hok with hp
      subst hp
      rfl
  | other => exact absurd hok (by simp [ARSPolicy.construct])

/-- Concrete instantiation of claim C9 at a Box policy built with
`net_arch=None`. -/
theorem ars_c9_net_arch_default_witness : sampleBoxPolicy.net_arch = [64, 64] :=
  (ars_c9_net_arch_default (GymSpace.box 2) (GymSpace.box 2) ActivationFn.relu false
    sampleBoxPolicy).1 rfl

/-- Claim C10: `ARSLinearPolicy` defaults to `with_bias=False` and
`squash_output=False` while `ARSPolicy` defaults to `net_arch=None`,
`activation_fn=nn.ReLU`, `squash_output=True`; the linear constructor accepts
no `net_arch` or `activation_fn`, so its base scaffolding always records
`net_arch=[64, 64]` and the rectified-linear activation. -/
theorem ars_c10_constructor_defaults (obs act : GymSpace) :
    ARSLinearPolicy.construct obs act = ARSLinearPolicy.construct obs act false false ∧
    ARSPolicy.construct obs act = ARSPolicy.construct obs act none ActivationFn.relu true ∧
    ∀ (wb so : Bool) (p : ARSPolicy),
      ARSLinearPolicy.construct obs act wb so = Except.ok p →
        p.net_arch = [64, 64] ∧ p.activation_fn = ActivationFn.relu := by
  refine ⟨rfl, rfl, ?_⟩
  intro wb so p hok
  cases act with
  | box d =>
      rw [linear_construct_box] at hok
      injection hok with hp
      subst hp
      exact ⟨rfl, rfl⟩
  | discrete n =>
      rw [linear_construct_discrete] at hok
      injection hok with hp
      subst hp
      exact ⟨rfl, rfl⟩
  | other => exact absurd hok (by simp [ARSLinearPolicy.construct, ARSPolicy.construct])

/-- Concrete instantiation of claim C10 at a default-constructed linear
policy over a Discrete space. -/
theorem ars_c10_constructor_defaults_witness :
    sampleLinearDiscretePolicy.net_arch = [64, 64] ∧
    sampleLinearDiscretePolicy.activation_fn = ActivationFn.relu :=
  (ars_c10_constructor_defaults (GymSpace.box 1) (GymSpace.discrete 2)).2.2 false false
    sampleLinearDiscretePolicy rfl

/-- Claim C4: serializing a constructed policy's constructor parameters and
reconstructing a policy from exactly those parameters yields a policy with
identical `net_arch`, activation function, observation-space and action-space
descriptors (network weights excluded). -/
theorem ars_c4_round_trip (obs act : GymSpace) (na : Option (List Nat)) (af : ActivationFn)
    (so wb : Bool) (p : ARSPolicy)
    (hok : ARSPolicy.construct obs act na af so = Except.ok p ∨
           ARSLinearPolicy.construct obs act wb so = Except.ok p) :
    ∃ q : ARSPolicy,
      ARSPolicy.construct p._get_constructor_parameters.observation_space
          p._get_constructor_parameters.action_space
          (some p._get_constructor_parameters.net_arch)
          p._get_constructor_parameters.activation_fn = Except.ok q ∧
      q._get_constructor_parameters = p._get_constructor_parameters := by
  have hsp : p.observation_space = obs ∧ p.action_space = act := by
    rcases hok with h | h
    · exact ARSPolicy.construct_ok_spaces obs act na af so p h
    · exact linear_construct_ok_spaces obs act wb so p h
  obtain ⟨ho, ha⟩ := hsp
  have hno : act ≠ GymSpace.other := by
    intro he
    subst he
    rcases hok with h | h
    · exact absurd h (by simp [ARSPolicy.construct])
    · exact absurd h (by simp [ARSLinearPolicy.construct, ARSPolicy.construct])
  simp only [ARSPolicy._get_constructor_parameters]
  rw [ha]
  cases act with
  | box d =>
      exact ⟨_, ARSPolicy.construct_box p.observation_space d (some p.net_arch)
        p.activation_fn true, rfl⟩
  | discrete n =>
      exact ⟨_, ARSPolicy.construct_discrete p.observation_space n (some p.net_arch)
        p.activation_fn true, rfl⟩
  | other => exact absurd rfl hno

/-- Concrete instantiation of claim C4 at a default linear policy over a
Discrete space, reconstructed through the serialized parameters. -/
theorem ars_c4_round_trip_witness :
    ∃ q : ARSPolicy,
      ARSPolicy.construct sampleLinearDiscretePolicy._get_constructor_parameters.observation_space
          sampleLinearDiscretePolicy._get_constructor_parameters.action_space
          (some sampleLinearDiscretePolicy._get_constructor_parameters.net_arch)
          sampleLinearDiscretePolicy._get_constructor_parameters.activation_fn = Except.ok q ∧
      q._get_constructor_parameters = sampleLinearDiscretePolicy._get_constructor_parameters :=
  ars_c4_round_trip (GymSpace.box 1) (GymSpace.discrete 2) none ActivationFn.relu false false
    sampleLinearDiscretePolicy (Or.inr rfl)

/-- Claim C8: for every policy whose construction succeeded the
unsupported-action-space branch inside `forward` is unreachable: `forward`
returns an action batch, never an error, on every observation batch. -/
theorem ars_c8_forward_never_raises (obs act : GymSpace) (na : Option (List Nat))
    (af : ActivationFn) (so wb : Bool) (p : ARSPolicy)
    (hok : ARSPolicy.construct obs act na af so = Except.ok p ∨
           ARSLinearPolicy.construct obs act wb so = Except.ok p) :
    ∀ (tanhSem : ℚ → ℚ) (ws : List LinearWeights) (obsB : List (List ℚ)),
      ∃ out : ActionOutput, p.forward tanhSem ws obsB = Except.ok out := by
  intro t ws obsB
  have ha : p.action_space = act := by
    rcases hok with h | h
    · exact (ARSPolicy.construct_ok_spaces obs act na af so p h).2
    · exact (linear_construct_ok_spaces obs act wb so p h).2
  have hno : act ≠ GymSpace.other := by
    intro he
    subst he
    rcases hok with h | h
    · exact absurd h (by simp [ARSPolicy.construct])
    · exact absurd h (by simp [ARSLinearPolicy.construct, ARSPolicy.construct])
  unfold ARSPolicy.forward
  rw [ha]
  cases act with
  | box d => exact ⟨_, rfl⟩
  | discrete n => exact ⟨_, rfl⟩
  | other => exact absurd rfl hno

/-- Concrete instantiation of claim C8 at a Box policy and a one-row batch. -/
theorem ars_c8_forward_never_raises_witness :
    ∃ out : ActionOutput, sampleBoxPolicy.forward tanhQ [] [[1, 2]] = Except.ok out :=
  ars_c8_forward_never_raises (GymSpace.box 2) (GymSpace.box 2) none ActivationFn.relu false
    false sampleBoxPolicy (Or.inl rfl) tanhQ [] [[1, 2]]

/-- A linear-then-`Tanh` network evaluates to a `Tanh` image whatever the
weight list. -/
theorem evalNet_linear_tanh (t : ℚ → ℚ) (i o : Nat) (wb : Bool)
    (ws : List LinearWeights) (x : List ℚ) :
    ∃ v : List ℚ, evalNet t [LayerSpec.linear i o wb, LayerSpec.tanh] ws x = v.map t := by
  cases ws with
  | nil => exact ⟨x, rfl⟩
  | cons wt ws2 => exact ⟨applyLinear wb wt x, rfl⟩

/-- Claim C5: for the linear policy over a Box space, `squash_output=True`
bounds every output coordinate inside the bounding function's range `(-1, 1)`
for every input, while `squash_output=False` yields exactly the unbounded
affine map of the features with no nonlinearity applied. -/
theorem ars_c5_linear_squash (tanhSem : ℚ → ℚ) (obs : GymSpace) (d : Nat) (wb : Bool)
    (hb : ∀ y : ℚ, -1 < tanhSem y ∧ tanhSem y < 1) :
    (∀ p : ARSPolicy, ARSLinearPolicy.construct obs (GymSpace.box d) wb true = Except.ok p →
      ∀ (ws : List LinearWeights) (x : List ℚ),
        ∀ z ∈ evalNet tanhSem p.action_net ws x, -1 < z ∧ z < 1) ∧
    (∀ q : ARSPolicy, ARSLinearPolicy.construct obs (GymSpace.box d) wb false = Except.ok q →
      ∀ (wt : LinearWeights) (x : List ℚ),
        evalNet tanhSem q.action_net [wt] x = applyLinear wb wt x) := by
  constructor
  · intro p hok ws x z hz
    have hnet : p.action_net = [LayerSpec.linear (featuresDim obs) d wb, LayerSpec.tanh] := by
      rw [linear_construct_box] at hok
      injection hok with hp
      subst hp
      rfl
    obtain ⟨v, hv⟩ := evalNet_linear_tanh tanhSem (featuresDim obs) d wb ws x
    rw [hnet, hv] at hz
    obtain ⟨y, _, hy⟩ := List.mem_map.mp hz
    exact hy ▸ hb y
  · intro q hok wt x
    have hnet : q.action_net = [LayerSpec.linear (featuresDim obs) d wb] := by
      rw [linear_construct_box] at hok
      injection hok with hq
      subst hq
      rfl
    rw [hnet]
    rfl

/-- Concrete instantiation of claim C5: the squashed linear policy's output
coordinate at input `[3]` with weight `[[2]]` is inside `(-1, 1)`, and the
unsquashed one equals the affine map. -/
theorem ars_c5_linear_squash_witness :
    (-1 < tanhQ 6 ∧ tanhQ 6 < 1) ∧
    evalNet tanhQ sampleUnsquashedLinearPolicy.action_net
        [LinearWeights.mk [[2]] [0]] [3] =
      applyLinear false (LinearWeights.mk [[2]] [0]) [3] :=
  ⟨(ars_c5_linear_squash tanhQ (GymSpace.box 1) 1 false tanhQ_bounded).1
      sampleSquashedLinearPolicy rfl [LinearWeights.mk [[2]] [0]] [3] (tanhQ 6)
      (by have hev : evalNet tanhQ sampleSquashedLinearPolicy.action_net
              [LinearWeights.mk [[2]] [0]] [3] = [tanhQ 6] := by
            show evalNet tanhQ [LayerSpec.linear 1 1 false, LayerSpec.tanh]
                [LinearWeights.mk [[2]] [0]] [3] = [tanhQ 6]
            simp [evalNet, applyLinear, dot]
            norm_num
          rw [hev]
          exact List.mem_singleton_self _),
   (ars_c5_linear_squash tanhQ (GymSpace.box 1) 1 false tanhQ_bounded).2
      sampleUnsquashedLinearPolicy rfl (LinearWeights.mk [[2]] [0]) [3]⟩

/-- Claim C6 (amended): for the linear policy constructed with
`with_bias=False` and `squash_output=False` — or over a Discrete space, where
squashing is never applied — the action network is the single bias-free
linear layer (no hidden layers, no nonlinearity), on the all-zero feature
vector it outputs the zero vector for a Box space and equal (all-zero) logits
for a Discrete space, and `forward` then deterministically returns index 0. -/
theorem ars_c6_linear_no_bias (tanhSem : ℚ → ℚ) (obs act : GymSpace) (so : Bool)
    (p : ARSPolicy) (hok : ARSLinearPolicy.construct obs act false so = Except.ok p)
    (hcase : so = false ∨ act.isDiscrete = true) :
    p.action_net = [LayerSpec.linear p.features_dim act.outDim false] ∧
    ∀ wt : LinearWeights, wt.weight.length = act.outDim →
      evalNet tanhSem p.action_net [wt] (List.replicate p.features_dim 0) =
        List.replicate act.outDim 0 ∧
      (∀ d : Nat, act = GymSpace.box d →
        p.forward tanhSem [wt] [List.replicate p.features_dim 0] =
          Except.ok (ActionOutput.continuous [List.replicate d 0])) ∧
      (∀ n : Nat, act = GymSpace.discrete n →
        p.forward tanhSem [wt] [List.replicate p.features_dim 0] =
          Except.ok (ActionOutput.discrete [0])) := by
  cases act with
  | box d =>
      have hso : so = false := by
        rcases hcase with h | h
        · exact h
        · exact absurd h (by simp [GymSpace.isDiscrete])
      subst hso
      rw [linear_construct_box] at hok
      injection hok with hp
      subst hp
      refine ⟨rfl, ?_⟩
      intro wt hw
      have heval : evalNet tanhSem [LayerSpec.linear (featuresDim obs) d false] [wt]
          (List.replicate (featuresDim obs) 0) = List.replicate d 0 := by
        show applyLinear false wt (List.replicate (featuresDim obs) 0) = List.replicate d 0
        rw [applyLinear_no_bias_zero, hw]
        rfl
      refine ⟨heval, ?_, ?_⟩
      · intro d2 hd
        injection hd with hdd
        subst hdd
        show Except.ok (ActionOutput.continuous
          [evalNet tanhSem [LayerSpec.linear (featuresDim obs) d false] [wt]
            (List.replicate (featuresDim obs) 0)]) = _
        rw [heval]
      · intro n hn
        cases hn
  | discrete n =>
      rw [linear_construct_discrete] at hok
      injection hok with hp
      subst hp
      refine ⟨rfl, ?_⟩
      intro wt hw
      have heval : evalNet tanhSem [LayerSpec.linear (featuresDim obs) n false] [wt]
          (List.replicate (featuresDim obs) 0) = List.replicate n 0 := by
        show applyLinear false wt (List.replicate (featuresDim obs) 0) = List.replicate n 0
        rw [applyLinear_no_bias_zero, hw]
        rfl
      refine ⟨heval, ?_, ?_⟩
      · intro d hd
        cases hd
      · intro n2 hn
        injection hn with hnn
        subst hnn
        show Except.ok (ActionOutput.discrete
          [argmax (evalNet tanhSem [LayerSpec.linear (featuresDim obs) n false] [wt]
            (List.replicate (featuresDim obs) 0))]) = _
        rw [heval, argmax_replicate_zero]
  | other =>
      exact absurd hok (by simp [ARSLinearPolicy.construct, ARSPolicy.construct])

/-- Concrete instantiation of claim C6 at the bias-free linear policy over a
Discrete space with two categories. -/
theorem ars_c6_linear_no_bias_witness :
    evalNet tanhQ sampleLinearDiscretePolicy.action_net [LinearWeights.mk [[1], [2]] [0, 0]]
        (List.replicate 1 0) = List.replicate 2 0 ∧
    sampleLinearDiscretePolicy.forward tanhQ [LinearWeights.mk [[1], [2]] [0, 0]]
        [List.replicate 1 0] = Except.ok (ActionOutput.discrete [0]) :=
  ⟨((ars_c6_linear_no_bias tanhQ (GymSpace.box 1) (GymSpace.discrete 2) false
      sampleLinearDiscretePolicy rfl (Or.inl rfl)).2
      (LinearWeights.mk [[1], [2]] [0, 0]) (by decide)).1,
   ((ars_c6_linear_no_bias tanhQ (GymSpace.box 1) (GymSpace.discrete 2) false
      sampleLinearDiscretePolicy rfl (Or.inl rfl)).2
      (LinearWeights.mk [[1], [2]] [0, 0]) (by decide)).2.2 2 rfl⟩

/-- Counterexample to claim C6 as stated: constructed with `with_bias=False`
but `squash_output=True` over a Box space, the linear policy's action network
is not a purely linear map of the features — the `Tanh` bounding module
follows the linear layer. -/
theorem ars_c6_linear_no_bias_counterexample :
    ARSLinearPolicy.construct (GymSpace.box 1) (GymSpace.box 1) false true =
      Except.ok sampleSquashedLinearPolicy ∧
    sampleSquashedLinearPolicy.action_net ≠
      [LayerSpec.linear sampleSquashedLinearPolicy.features_dim (GymSpace.box 1).outDim false] ∧
    LayerSpec.tanh ∈ sampleSquashedLinearPolicy.action_net :=
  ⟨rfl, by decide, by decide⟩

/-- Claim C2: over a Discrete action space with `N` categories, `forward`
returns one index per input row, each equal to the arg-max of the action
network's raw logits on that row: the logits row has exactly `N` entries, the
returned index is below `N`, no logit exceeds the logit at the returned
index, and every logit strictly before the returned index is strictly below
it (ties go to the first-occurring maximum). -/
theorem ars_c2_discrete_argmax (tanhSem : ℚ → ℚ) (obs : GymSpace) (N : Nat)
    (na : Option (List Nat)) (af : ActivationFn) (so wb so2 : Bool) (p : ARSPolicy)
    (ws : List LinearWeights) (obsB : List (List ℚ))
    (hok : ARSPolicy.construct obs (GymSpace.discrete N) na af so = Except.ok p ∨
           ARSLinearPolicy.construct obs (GymSpace.discrete N) wb so2 = Except.ok p)
    (hN : 0 < N) (hws : weightsMatch p.action_net ws = true) :
    p.forward tanhSem ws obsB =
      Except.ok (ActionOutput.discrete
        (obsB.map (fun row => argmax (evalNet tanhSem p.action_net ws row)))) ∧
    ∀ row ∈ obsB,
      (evalNet tanhSem p.action_net ws row).length = N ∧
      argmax (evalNet tanhSem p.action_net ws row) < N ∧
      (∀ j : Nat, j < N →
        (evalNet tanhSem p.action_net ws row).getD j 0 ≤
          (evalNet tanhSem p.action_net ws row).getD
            (argmax (evalNet tanhSem p.action_net ws row)) 0) ∧
      (∀ j : Nat, j < argmax (evalNet tanhSem p.action_net ws row) →
        (evalNet tanhSem p.action_net ws row).getD j 0 <
          (evalNet tanhSem p.action_net ws row).getD
            (argmax (evalNet tanhSem p.action_net ws row)) 0) := by
  have hkey : p.action_space = GymSpace.discrete N ∧
      ∀ k : Nat, netOutputLen p.action_net k = N := by
    rcases hok with h | h
    · rw [ARSPolicy.construct_discrete] at h
      injection h with hp
      subst hp
      exact ⟨rfl, fun k => netOutputLen_create_mlp _ _ _ _ _ hN k⟩
    · rw [linear_construct_discrete] at h
      injection h with hp
      subst hp
      exact ⟨rfl, fun k => rfl⟩
  obtain ⟨hsp, hlen⟩ := hkey
  constructor
  · unfold ARSPolicy.forward
    rw [hsp]
  · intro row hrow
    have hL : (evalNet tanhSem p.action_net ws row).length = N := by
      rw [evalNet_length tanhSem p.action_net ws row hws, hlen]
    have hne : evalNet tanhSem p.action_net ws row ≠ [] := by
      intro he
      rw [he] at hL
      simp at hL
      omega
    have harg : argmax (evalNet tanhSem p.action_net ws row) < N := by
      rw [← hL]
      exact argmax_lt_length _ hne
    rcases hm : listMax? (evalNet tanhSem p.action_net ws row) with _ | m
    · exact absurd ((listMax?_eq_none_iff _).mp hm) hne
    · have hgm := argmax_getD _ m hm
      refine ⟨hL, harg, ?_, ?_⟩
      · intro j hj
        rw [hgm]
        have hjL : j < (evalNet tanhSem p.action_net ws row).length := by
          rw [hL]
          exact hj
        have hmem : (evalNet tanhSem p.action_net ws row).getD j 0 ∈
            evalNet tanhSem p.action_net ws row := by
          rw [List.getD_eq_getElem _ _ hjL]
          exact List.getElem_mem hjL
        exact listMax?_le _ m hm _ hmem
      · intro j hj
        exact argmax_first _ j hj

/-- Concrete instantiation of claim C2 at a Discrete policy with an empty
`net_arch`, weight rows `[[1], [2]]` and the one-row batch `[[1]]`. -/
theorem ars_c2_discrete_argmax_witness :
    sampleDiscretePolicy.forward tanhQ [LinearWeights.mk [[1], [2]] [0, 0]] [[1]] =
      Except.ok (ActionOutput.discrete
        ([[(1 : ℚ)]].map (fun row => argmax (evalNet tanhQ sampleDiscretePolicy.action_net
          [LinearWeights.mk [[1], [2]] [0, 0]] row)))) :=
  (ars_c2_discrete_argmax tanhQ (GymSpace.box 1) 2 (some []) ActivationFn.relu true false
    false sampleDiscretePolicy [LinearWeights.mk [[1], [2]] [0, 0]] [[(1 : ℚ)]]
    (Or.inl rfl) (by decide) (by decide)).1
